import Mathlib

/-!
# Verification of the GAIN USDT distributor and LABToken fee logic

Shallow embedding of `src/contracts/contracts/GAINUSDTDistributor.sol`,
`src/contracts/contracts/LABToken.sol` (fee computation) and the Express
backend middleware (`requireApiKey`, `validateBody`, `errorHandler`).

Addresses are modelled as `Nat` with `0` standing for `address(0)`.
Solidity mappings are modelled as association lists (first matching key wins,
updates prepend), token amounts as `Nat` (all the arithmetic here stays far
below 2^256, and Solidity 0.8 reverts on overflow, so `Nat` is faithful).
The unbounded `while` walk in `_payRoyalty` is given a fuel parameter; fuel
exhaustion models the out-of-gas revert of the EVM and surfaces as the
distinguished error `OutOfGas`.
-/

namespace GainDist

/-- First-match lookup in an association list, with default `d`.
Models reading a Solidity mapping (missing key = zero value). -/
def mapGet {α β : Type} [DecidableEq α] (d : β) : List (α × β) → α → β
  | [], _ => d
  | (k, v) :: rest, x => if x = k then v else mapGet d rest x

/-- Update of an association list: prepend the new binding.
Models writing a Solidity mapping slot. -/
def mapSet {α β : Type} (m : List (α × β)) (k : α) (v : β) : List (α × β) :=
  (k, v) :: m

/-- Errors of the distributor contract (`error` declarations plus the two
implicit reverts: arithmetic underflow and out-of-gas). -/
inductive DistError : Type
  | InvalidSponsor
  | SlotOutOfBounds
  | AllowanceTooLow
  | MustWaitNextBlock
  | InsufficientBalance
  | Underflow
  | OutOfGas
deriving DecidableEq, Repr

/-- Storage of `GAINUSDTDistributor`. -/
structure DistState where
  referrerOf : List (Nat × Nat)
  childrenOf : List (Nat × List Nat)
  userSlot : List (Nat × Nat)
  qualifiedDirects : List ((Nat × Nat) × Nat)
  directMaxSlot : List ((Nat × Nat) × Nat)
  registeredAllowance : List (Nat × (Nat × Nat))
deriving DecidableEq, Repr

/-- `referrerOf[a]`. -/
def DistState.refOf (st : DistState) (a : Nat) : Nat := mapGet 0 st.referrerOf a

/-- `childrenOf[a]`. -/
def DistState.children (st : DistState) (a : Nat) : List Nat := mapGet [] st.childrenOf a

/-- `userSlot[a]`. -/
def DistState.slotOf (st : DistState) (a : Nat) : Nat := mapGet 0 st.userSlot a

/-- `qualifiedDirects[s][l]`. -/
def DistState.qd (st : DistState) (s l : Nat) : Nat := mapGet 0 st.qualifiedDirects (s, l)

/-- `directMaxSlot[s][c]`. -/
def DistState.dms (st : DistState) (s c : Nat) : Nat := mapGet 0 st.directMaxSlot (s, c)

/-- `registeredAllowance[a]` as a pair `(allowance, blockNum)`. -/
def DistState.allowRec (st : DistState) (a : Nat) : Nat × Nat :=
  mapGet (0, 0) st.registeredAllowance a

/-- State right after deployment: every mapping empty. -/
def initState : DistState :=
  { referrerOf := [], childrenOf := [], userSlot := [],
    qualifiedDirects := [], directMaxSlot := [], registeredAllowance := [] }

/-- Immutable deployment configuration of the distributor. -/
structure DistConfig where
  tokenDecimals : Nat
  creatorWallet : Nat
  flashWallet : Nat
deriving DecidableEq, Repr

/-- `SLOT_PRICE` table filled by the constructor (index 0 unused). -/
def SLOT_PRICE_TABLE : List Nat :=
  [0, 20, 25, 50, 100, 200, 400, 800, 1600, 3200, 6400, 12800, 25600]

/-- `SLOT_PRICE[slotId]` for the given token decimals. -/
def SLOT_PRICE (decimals slotId : Nat) : Nat :=
  SLOT_PRICE_TABLE.getD slotId 0 * 10 ^ decimals

/-- `ROYALTY_BP` array filled by the constructor (indexes 5..11, others zero). -/
def ROYALTY_BP (level : Nat) : Nat :=
  if level = 5 then 500
  else if level = 6 then 400
  else if level = 7 then 200
  else if level = 8 ∨ level = 9 ∨ level = 10 ∨ level = 11 then 100
  else 0

def BPS : Nat := 10000
def UPLINE_BPS : Nat := 7000
def DIRECT_BPS : Nat := 1200
def CREATOR_BPS : Nat := 300
def MAX_SLOT : Nat := 12

/-- `registerApproval()` called by `user` whose current USDT allowance to the
contract is `allow`, at block `blockNumber`. -/
def registerApproval (st : DistState) (user allow blockNumber : Nat) :
    Except DistError DistState :=
  if allow = 0 then Except.error DistError.AllowanceTooLow
  else Except.ok
    { st with registeredAllowance := mapSet st.registeredAllowance user (allow, blockNumber) }

/-- The `for (level = previous + 1; level <= slotId; level++)` loop of
`_registerReferral`: bump `qualifiedDirects[s][lo]`, `[lo+1]`, ... for `n`
consecutive levels. -/
def bumpRange : List ((Nat × Nat) × Nat) → Nat → Nat → Nat → List ((Nat × Nat) × Nat)
  | qd, _, _, 0 => qd
  | qd, s, lo, n + 1 =>
    bumpRange (mapSet qd (s, lo) (mapGet 0 qd (s, lo) + 1)) s (lo + 1) n

/-- First block of `_registerReferral`: set `referrerOf[buyer]` and push
`buyer` onto `childrenOf[sponsor]` on first contact, revert `InvalidSponsor`
on a mismatching repeat sponsor. -/
def referralLink (st : DistState) (buyer sponsor : Nat) : Except DistError DistState :=
  if st.refOf buyer = 0 then
    Except.ok { st with
      referrerOf := mapSet st.referrerOf buyer sponsor,
      childrenOf := mapSet st.childrenOf sponsor (st.children sponsor ++ [buyer]) }
  else if st.refOf buyer ≠ sponsor then Except.error DistError.InvalidSponsor
  else Except.ok st

/-- Second block of `_registerReferral`:
`if (slotId > userSlot[buyer]) userSlot[buyer] = slotId`. -/
def updateUserSlot (st : DistState) (buyer slotId : Nat) : DistState :=
  if st.slotOf buyer < slotId then { st with userSlot := mapSet st.userSlot buyer slotId }
  else st

/-- Third block of `_registerReferral`: when `referrerOf[buyer] == sponsor`
and the buyer reached a new direct-max slot, bump
`qualifiedDirects[sponsor][previous+1 .. slotId]` and record the new
`directMaxSlot[sponsor][buyer]`. -/
def updateQualified (st : DistState) (buyer sponsor slotId : Nat) : DistState :=
  if st.refOf buyer = sponsor then
    if st.dms sponsor buyer < slotId then
      { st with
        qualifiedDirects :=
          bumpRange st.qualifiedDirects sponsor (st.dms sponsor buyer + 1)
            (slotId - st.dms sponsor buyer),
        directMaxSlot := mapSet st.directMaxSlot (sponsor, buyer) slotId }
    else st
  else st

/-- `_registerReferral(buyer, sponsor, slotId)`: the three blocks in source
order. -/
def registerReferral (st : DistState) (buyer sponsor slotId : Nat) :
    Except DistError DistState :=
  match referralLink st buyer sponsor with
  | Except.error e => Except.error e
  | Except.ok st1 =>
    Except.ok (updateQualified (updateUserSlot st1 buyer slotId) buyer sponsor slotId)

/-- `_resolveUplineRecipient(sponsor)`. -/
def resolveUplineRecipient (st : DistState) (sponsor : Nat) : Nat :=
  let pos := (st.children sponsor).length
  if pos = 1 ∨ pos = 3 then st.refOf sponsor else sponsor

/-- Does `a` qualify to receive the royalty of `level`
(`userSlot[a] >= level && qualifiedDirects[a][level] >= 4`)? -/
def qualifies (st : DistState) (level a : Nat) : Bool :=
  decide (level ≤ st.slotOf a ∧ 4 ≤ st.qd a level)

/-- The `while (walker != address(0))` loop of `_payRoyalty`, with fuel.
`none` = fuel (gas) exhausted; `some none` = walk reached `address(0)` with
no beneficiary; `some (some b)` = beneficiary `b` found. -/
def royaltyWalk (st : DistState) (level : Nat) : Nat → Nat → Option (Option Nat)
  | 0, _ => none
  | fuel + 1, walker =>
    if walker = 0 then some none
    else if qualifies st level walker then some (some walker)
    else royaltyWalk st level fuel (st.refOf walker)

/-- One `for` iteration body of `_payRoyalty` over the given list of levels:
returns `(total, transfers)` where `transfers` lists `(recipient, amount)`
of the `USDT.safeTransfer` calls performed, in order. -/
def payRoyaltyLevels (st : DistState) (fuel sponsor price : Nat) :
    List Nat → Option (Nat × List (Nat × Nat))
  | [] => some (0, [])
  | level :: rest =>
    if ROYALTY_BP level = 0 then payRoyaltyLevels st fuel sponsor price rest
    else
      match royaltyWalk st level fuel sponsor with
      | none => none
      | some none => payRoyaltyLevels st fuel sponsor price rest
      | some (some b) =>
        match payRoyaltyLevels st fuel sponsor price rest with
        | none => none
        | some (t, xs) =>
          some (price * ROYALTY_BP level / BPS + t, (b, price * ROYALTY_BP level / BPS) :: xs)

/-- `_payRoyalty(sponsor, price)`: levels 5..11. -/
def payRoyalty (st : DistState) (fuel sponsor price : Nat) :
    Option (Nat × List (Nat × Nat)) :=
  payRoyaltyLevels st fuel sponsor price [5, 6, 7, 8, 9, 10, 11]

/-- `slotBuy(slotId, sponsor)` called by `buyer` at block `blockNumber`, with
`bal` = `USDT.balanceOf(buyer)`. On success returns the post state and the
list of outgoing `(recipient, amount)` USDT transfers, in order (the incoming
`safeTransferFrom` of the price is not in the list). -/
def slotBuy (cfg : DistConfig) (st : DistState)
    (fuel blockNumber bal buyer slotId sponsor : Nat) :
    Except DistError (DistState × List (Nat × Nat)) :=
  if slotId = 0 ∨ MAX_SLOT < slotId then Except.error DistError.SlotOutOfBounds
  else if sponsor = 0 then Except.error DistError.InvalidSponsor
  else if (st.allowRec buyer).1 < SLOT_PRICE cfg.tokenDecimals slotId then
    Except.error DistError.AllowanceTooLow
  else if blockNumber ≤ (st.allowRec buyer).2 then Except.error DistError.MustWaitNextBlock
  else if bal < SLOT_PRICE cfg.tokenDecimals slotId then Except.error DistError.InsufficientBalance
  else
    match registerReferral st buyer sponsor slotId with
    | Except.error e => Except.error e
    | Except.ok st1 =>
      match payRoyalty st1 fuel sponsor (SLOT_PRICE cfg.tokenDecimals slotId) with
      | none => Except.error DistError.OutOfGas
      | some (royaltyPaid, royaltyXfers) =>
        if SLOT_PRICE cfg.tokenDecimals slotId * 1500 / BPS < royaltyPaid then
          Except.error DistError.Underflow
        else
          Except.ok (st1,
            (sponsor, SLOT_PRICE cfg.tokenDecimals slotId * DIRECT_BPS / BPS) ::
            (cfg.creatorWallet, SLOT_PRICE cfg.tokenDecimals slotId * CREATOR_BPS / BPS) ::
            (if resolveUplineRecipient st1 sponsor ≠ 0 then
                (resolveUplineRecipient st1 sponsor,
                  SLOT_PRICE cfg.tokenDecimals slotId * UPLINE_BPS / BPS)
              else (cfg.flashWallet, SLOT_PRICE cfg.tokenDecimals slotId * UPLINE_BPS / BPS)) ::
            (royaltyXfers ++
              (if 0 < SLOT_PRICE cfg.tokenDecimals slotId * 1500 / BPS - royaltyPaid then
                  [(cfg.flashWallet, SLOT_PRICE cfg.tokenDecimals slotId * 1500 / BPS - royaltyPaid)]
                else [])))

/-- Reachable storage states of the distributor: the empty deployment state,
closed under successful `registerApproval` and `slotBuy` transactions (a
reverting transaction leaves the storage unchanged, so only `ok` results
produce new states). -/
inductive Reachable (cfg : DistConfig) : DistState → Prop
  | init : Reachable cfg initState
  | approve {st st' : DistState} {user allow blockNumber : Nat} :
      Reachable cfg st →
      registerApproval st user allow blockNumber = Except.ok st' →
      Reachable cfg st'
  | buy {st : DistState} {fuel blockNumber bal buyer slotId sponsor : Nat}
      {out : DistState × List (Nat × Nat)} :
      Reachable cfg st →
      slotBuy cfg st fuel blockNumber bal buyer slotId sponsor = Except.ok out →
      Reachable cfg out.1

/-- The state produced by a `registerApproval` call, defaulting to the old
state when the call reverts. -/
def approveOut (st : DistState) (user allow blockNumber : Nat) : DistState :=
  match registerApproval st user allow blockNumber with
  | Except.ok s => s
  | Except.error _ => st

/-- The result of a `slotBuy` call, defaulting to `(st, [])` when the call
reverts. -/
def buyOut (cfg : DistConfig) (st : DistState)
    (fuel blockNumber bal buyer slotId sponsor : Nat) : DistState × List (Nat × Nat) :=
  match slotBuy cfg st fuel blockNumber bal buyer slotId sponsor with
  | Except.ok p => p
  | Except.error _ => (st, [])

/-- The state produced by `_registerReferral`, defaulting to the old state
when it reverts. -/
def registerReferralOut (st : DistState) (buyer sponsor slotId : Nat) : DistState :=
  match registerReferral st buyer sponsor slotId with
  | Except.ok s => s
  | Except.error _ => st

/-- `n`-fold iteration of `referrerOf`: the `n`-th ancestor of `a` (0 once
the chain has ended). -/
def refIter (st : DistState) : Nat → Nat → Nat
  | 0, a => a
  | n + 1, a => refIter st n (st.refOf a)

/-- The referrer chain starting at `a` (inclusive), cut off after `n`
entries or at the zero address, whichever comes first. -/
def chainList (st : DistState) : Nat → Nat → List Nat
  | 0, _ => []
  | n + 1, a => if a = 0 then [] else a :: chainList st n (st.refOf a)

/-- Declarative specification of `_payRoyalty`'s transfers: for each level
with a nonzero royalty, pay `⌊price*bp/10000⌋` to the first member of the
sponsor's referrer chain that qualifies at that level (none if no member of
the chain qualifies). -/
def royaltySpec (st : DistState) (fuel sponsor price : Nat) : List (Nat × Nat) :=
  [5, 6, 7, 8, 9, 10, 11].filterMap (fun l =>
    if ROYALTY_BP l = 0 then none
    else
      match (chainList st fuel sponsor).find? (qualifies st l) with
      | some b => some (b, price * ROYALTY_BP l / BPS)
      | none => none)

/-- The number of directs of `s` whose recorded maximum slot is at least
`l`. -/
def qdCount (st : DistState) (s l : Nat) : Nat :=
  (st.children s).countP (fun c => decide (l ≤ st.dms s c))

/-- Inductive invariant of the referral bookkeeping: children lists are
duplicate-free, membership in a children list coincides with the recorded
referrer edge, a nonzero `directMaxSlot[s][c]` implies `s` is `c`'s recorded
referrer, and `qualifiedDirects[s][l]` counts the directs of `s` whose
recorded maximum slot reached `l`. -/
def ReferralInv (st : DistState) : Prop :=
  (∀ s, (st.children s).Nodup) ∧
  (∀ s c, c ∈ st.children s ↔ (s ≠ 0 ∧ st.refOf c = s)) ∧
  (∀ s c, st.dms s c ≠ 0 → (s ≠ 0 ∧ st.refOf c = s)) ∧
  (∀ s l, 1 ≤ l → st.qd s l = qdCount st s l)

end GainDist

namespace LabToken

/-- `FeeConfig` of `LABToken` (basis points fit in `uint16`; `Nat` is used,
with the bounds enforced by `validateFees`). -/
structure FeeConfig where
  platformFeeBps : Nat
  creatorFeeBps : Nat
  royaltyFeeBps : Nat
  referrerFeeBps : Nat
deriving DecidableEq, Repr

def MAX_FEE_BPS : Nat := 1000
def BPS_DENOMINATOR : Nat := 10000

/-- `_validateFees(config)`: `true` iff none of its `require`s reverts. -/
def validateFees (c : FeeConfig) : Bool :=
  decide (c.platformFeeBps ≤ MAX_FEE_BPS ∧ c.creatorFeeBps ≤ MAX_FEE_BPS ∧
    c.royaltyFeeBps ≤ MAX_FEE_BPS ∧ c.referrerFeeBps ≤ MAX_FEE_BPS ∧
    c.platformFeeBps + c.creatorFeeBps + c.royaltyFeeBps + c.referrerFeeBps ≤ MAX_FEE_BPS)

/-- `FeeBreakdown` of `LABToken`. -/
structure FeeBreakdown where
  netAmount : Nat
  platformFee : Nat
  creatorFee : Nat
  royaltyFee : Nat
  referrerFee : Nat
deriving DecidableEq, Repr

/-- The possible reverts of `_applyFees`. -/
inductive FeeError : Type
  | InvalidConfig
  | FeesExceedAmount
  | NetAmountZero
deriving DecidableEq, Repr

/-- `totalFees` of `_applyFees`: the sum of `platformFee`, `creatorFee`,
`royaltyFee` and `referrerFee`, where the referrer fee is only computed for
a nonzero referrer. -/
def feeTotal (amount : Nat) (c : FeeConfig) (referrer : Nat) : Nat :=
  amount * c.platformFeeBps / BPS_DENOMINATOR + amount * c.creatorFeeBps / BPS_DENOMINATOR +
    amount * c.royaltyFeeBps / BPS_DENOMINATOR +
    (if referrer ≠ 0 then amount * c.referrerFeeBps / BPS_DENOMINATOR else 0)

/-- `_applyFees(sender, amount, config, referrer)`: the fee computation and
its three `require`s (`_validateFees`, "Fees exceed amount",
"Net amount zero"), without the `_transfer` side effects. -/
def applyFees (amount : Nat) (c : FeeConfig) (referrer : Nat) :
    Except FeeError FeeBreakdown :=
  if ¬ validateFees c then Except.error FeeError.InvalidConfig
  else if amount < feeTotal amount c referrer then Except.error FeeError.FeesExceedAmount
  else if amount - feeTotal amount c referrer = 0 then Except.error FeeError.NetAmountZero
  else Except.ok
    { netAmount := amount - feeTotal amount c referrer,
      platformFee := amount * c.platformFeeBps / BPS_DENOMINATOR,
      creatorFee := amount * c.creatorFeeBps / BPS_DENOMINATOR,
      royaltyFee := amount * c.royaltyFeeBps / BPS_DENOMINATOR,
      referrerFee := if referrer ≠ 0 then amount * c.referrerFeeBps / BPS_DENOMINATOR else 0 }

end LabToken

namespace Backend

/-- An HTTP response, reduced to the status code and the error/body message
produced by `errorHandler` for `HttpError` values. -/
structure HttpResponse where
  status : Nat
  message : String
deriving DecidableEq, Repr

/-- `requireApiKey` middleware: `some err` when it throws `HttpError(401)`,
`none` when it calls `next()`. `header` is the `X-API-Key` header (`none`
when absent); the JS guard `!apiKey` is also true for the empty string. -/
def requireApiKey (adminKey : String) (header : Option String) : Option HttpResponse :=
  let apiKeyFalsy : Bool := match header with | none => true | some s => decide (s = "")
  if apiKeyFalsy = true ∨ header ≠ some adminKey then some ⟨401, "Unauthorized"⟩ else none

/-- `validateBody(schema)` middleware: a zod schema is abstracted as a
function returning either the parsed body or the list of issue messages of
the `ZodError`; validation failure becomes `HttpError(400, firstMessage)`. -/
def validateBody {α β : Type} (schema : α → Except (List String) β) (body : α) :
    Except HttpResponse β :=
  match schema body with
  | Except.ok b => Except.ok b
  | Except.error issues => Except.error ⟨400, issues.headD "Invalid request body"⟩

/-- An admin `POST` route as registered in the token router:
`tokenRouter.post(path, requireApiKey, validateBody(schema), handler)`.
Express runs the middlewares left to right; a thrown/forwarded `HttpError`
reaches `errorHandler`, which responds with the error's status and message. -/
def runAdminPost {α β : Type} (adminKey : String) (schema : α → Except (List String) β)
    (handler : β → HttpResponse) (header : Option String) (body : α) : HttpResponse :=
  match requireApiKey adminKey header with
  | some err => err
  | none =>
    match validateBody schema body with
    | Except.error err => err
    | Except.ok b => handler b

/-- A non-admin `POST` route: `tokenRouter.post(path, validateBody(schema), handler)`. -/
def runPost {α β : Type} (schema : α → Except (List String) β)
    (handler : β → HttpResponse) (body : α) : HttpResponse :=
  match validateBody schema body with
  | Except.error err => err
  | Except.ok b => handler b

end Backend

/-! ## Concrete example states

Used by witnesses and by the reachability counterexample: six users
(addresses 1..6) register generous approvals at block 1 and buy at block 2,
under a deployment with 0 token decimals, creator wallet 90, flash wallet 91.
-/

open GainDist in
/-- Example deployment configuration. -/
def cfgEx : DistConfig := ⟨0, 90, 91⟩

open GainDist in
/-- State used by the C7 witness: the snapshot `registerApproval` records at
block 5 for user 1. -/
def stC7 : DistState :=
  { initState with registeredAllowance := [(1, (100, 5))] }

open GainDist in
/-- Six approvals of 100000 at block 1 for users 1..6. -/
def exS0 : DistState :=
  approveOut (approveOut (approveOut (approveOut (approveOut (approveOut
    initState 1 100000 1) 2 100000 1) 3 100000 1) 4 100000 1) 5 100000 1) 6 100000 1

open GainDist in
/-- User 1 buys slot 11 under sponsor 2 (2 is not yet registered). -/
def exS1 : DistState := (buyOut cfgEx exS0 10 2 100000 1 11 2).1

open GainDist in
/-- User 3 buys slot 11 under sponsor 1. -/
def exS2 : DistState := (buyOut cfgEx exS1 10 2 100000 3 11 1).1

open GainDist in
/-- User 4 buys slot 11 under sponsor 1. -/
def exS3 : DistState := (buyOut cfgEx exS2 10 2 100000 4 11 1).1

open GainDist in
/-- User 5 buys slot 11 under sponsor 1. -/
def exS4 : DistState := (buyOut cfgEx exS3 10 2 100000 5 11 1).1

open GainDist in
/-- User 6 buys slot 11 under sponsor 1: user 1 now has four qualified
directs at every level up to 11. -/
def exS5 : DistState := (buyOut cfgEx exS4 10 2 100000 6 11 1).1

open GainDist in
/-- User 2 buys slot 1 naming its own descendant 1 as sponsor; the royalty
walks all stop at user 1, so the purchase succeeds and closes the referral
cycle 1 → 2 → 1. -/
def exS6 : DistState := (buyOut cfgEx exS5 10 2 100000 2 1 1).1

/-! ## Basic lemmas about the embedding -/

namespace GainDist

@[simp] theorem mapGet_nil {α β : Type} [DecidableEq α] (d : β) (x : α) :
    mapGet d ([] : List (α × β)) x = d := rfl

@[simp] theorem mapGet_cons {α β : Type} [DecidableEq α] (d : β) (k x : α) (v : β)
    (rest : List (α × β)) :
    mapGet d ((k, v) :: rest) x = if x = k then v else mapGet d rest x := rfl

@[simp] theorem mapGet_mapSet {α β : Type} [DecidableEq α] (d : β) (m : List (α × β))
    (k x : α) (v : β) :
    mapGet d (mapSet m k v) x = if x = k then v else mapGet d m x := rfl

theorem registerApproval_eq_ok_approveOut (st : DistState) (user allow blockNumber : Nat)
    (h : allow ≠ 0) :
    registerApproval st user allow blockNumber =
      Except.ok (approveOut st user allow blockNumber) := by
  unfold approveOut registerApproval
  simp [h]

theorem slotBuy_eq_ok_buyOut (cfg : DistConfig) (st : DistState)
    (fuel blockNumber bal buyer slotId sponsor : Nat)
    (h : (slotBuy cfg st fuel blockNumber bal buyer slotId sponsor).isOk = true) :
    slotBuy cfg st fuel blockNumber bal buyer slotId sponsor =
      Except.ok (buyOut cfg st fuel blockNumber bal buyer slotId sponsor) := by
  unfold buyOut
  cases he : slotBuy cfg st fuel blockNumber bal buyer slotId sponsor <;>
    simp_all [Except.isOk, Except.toBool]

/-- Inversion of a successful `slotBuy`: the guards passed, the post state is
the `_registerReferral` result, and the transfer list consists of the direct,
creator and upline shares followed by the royalty transfers and the
flash-wallet leftover. -/
theorem slotBuy_ok_elim {cfg : DistConfig} {st : DistState}
    {fuel blockNumber bal buyer slotId sponsor : Nat} {out : DistState × List (Nat × Nat)}
    (h : slotBuy cfg st fuel blockNumber bal buyer slotId sponsor = Except.ok out) :
    slotId ≠ 0 ∧ slotId ≤ MAX_SLOT ∧ sponsor ≠ 0 ∧
    registerReferral st buyer sponsor slotId = Except.ok out.1 ∧
    ∃ paid xfers,
      payRoyalty out.1 fuel sponsor (SLOT_PRICE cfg.tokenDecimals slotId) = some (paid, xfers) ∧
      paid ≤ SLOT_PRICE cfg.tokenDecimals slotId * 1500 / BPS ∧
      out.2 =
        (sponsor, SLOT_PRICE cfg.tokenDecimals slotId * DIRECT_BPS / BPS) ::
        (cfg.creatorWallet, SLOT_PRICE cfg.tokenDecimals slotId * CREATOR_BPS / BPS) ::
        (if resolveUplineRecipient out.1 sponsor ≠ 0 then
            (resolveUplineRecipient out.1 sponsor,
              SLOT_PRICE cfg.tokenDecimals slotId * UPLINE_BPS / BPS)
          else (cfg.flashWallet, SLOT_PRICE cfg.tokenDecimals slotId * UPLINE_BPS / BPS)) ::
        (xfers ++
          (if 0 < SLOT_PRICE cfg.tokenDecimals slotId * 1500 / BPS - paid then
              [(cfg.flashWallet, SLOT_PRICE cfg.tokenDecimals slotId * 1500 / BPS - paid)]
            else [])) := by
  unfold slotBuy at h
  split_ifs at h with h1 h2 h3 h4 h5
  cases hreg : registerReferral st buyer sponsor slotId with
  | error e =>
    rw [hreg] at h
    exact absurd h (by simp)
  | ok st1 =>
    rw [hreg] at h
    dsimp only at h
    cases hpay : payRoyalty st1 fuel sponsor (SLOT_PRICE cfg.tokenDecimals slotId) with
    | none =>
      rw [hpay] at h
      exact absurd h (by simp)
    | some pr =>
      rw [hpay] at h
      obtain ⟨paid, xfers⟩ := pr
      dsimp only at h
      by_cases hu : SLOT_PRICE cfg.tokenDecimals slotId * 1500 / BPS < paid
      · rw [if_pos hu] at h
        exact absurd h (by simp)
      · rw [if_neg hu] at h
        injection h with h'
        subst h'
        push_neg at h1
        refine ⟨h1.1, h1.2, h2, ?_, paid, xfers, ?_, Nat.not_lt.mp hu, ?_⟩
        · simpa using hreg
        · simpa using hpay
        · rfl

end GainDist

/-! ## Arithmetic helpers -/

theorem div_add_div_le_div (a b c : Nat) : a / c + b / c ≤ (a + b) / c := by
  rcases Nat.eq_zero_or_pos c with hc | hc
  · simp [hc]
  · rw [Nat.le_div_iff_mul_le hc, Nat.add_mul]
    exact Nat.add_le_add (Nat.div_mul_le_self a c) (Nat.div_mul_le_self b c)

theorem four_div_le (a1 a2 a3 a4 c : Nat) :
    a1 / c + a2 / c + a3 / c + a4 / c ≤ (a1 + a2 + a3 + a4) / c := by
  calc a1 / c + a2 / c + a3 / c + a4 / c
      ≤ (a1 + a2) / c + a3 / c + a4 / c :=
        Nat.add_le_add_right (Nat.add_le_add_right (div_add_div_le_div a1 a2 c) _) _
    _ ≤ (a1 + a2 + a3) / c + a4 / c := Nat.add_le_add_right (div_add_div_le_div _ a3 c) _
    _ ≤ (a1 + a2 + a3 + a4) / c := div_add_div_le_div _ a4 c

/-! ## C4: LABToken fee totals never exceed the amount -/

/-- **C4**: for every transfer amount `a > 0` and every fee configuration
accepted by `_validateFees` (each bps field at most 1000 and their sum at
most 1000), the four fees of `_applyFees`, each `⌊a*bps/10000⌋`, sum to at
most `a`; hence the "Fees exceed amount" `require` never fails and the net
amount is a well defined `Nat`. This covers every LABToken payout operation,
since each passes `_fees[...]` (with some fields zeroed) to `_applyFees`,
which revalidates the configuration first. -/
theorem applyFees_fees_bounded (amount referrer : Nat) (c : LabToken.FeeConfig)
    (hv : LabToken.validateFees c = true) (ha : 0 < amount) :
    LabToken.feeTotal amount c referrer ≤ amount ∧
    LabToken.applyFees amount c referrer ≠ Except.error LabToken.FeeError.FeesExceedAmount := by
  have hb := of_decide_eq_true hv
  have hsum : c.platformFeeBps + c.creatorFeeBps + c.royaltyFeeBps + c.referrerFeeBps ≤ 1000 := by
    have := hb.2.2.2.2
    simpa [LabToken.MAX_FEE_BPS] using this
  have key : LabToken.feeTotal amount c referrer ≤ amount := by
    unfold LabToken.feeTotal
    have step0 : (if referrer ≠ 0 then amount * c.referrerFeeBps / LabToken.BPS_DENOMINATOR else 0)
        ≤ amount * c.referrerFeeBps / LabToken.BPS_DENOMINATOR := by
      split <;> simp
    calc amount * c.platformFeeBps / LabToken.BPS_DENOMINATOR +
          amount * c.creatorFeeBps / LabToken.BPS_DENOMINATOR +
          amount * c.royaltyFeeBps / LabToken.BPS_DENOMINATOR +
          (if referrer ≠ 0 then amount * c.referrerFeeBps / LabToken.BPS_DENOMINATOR else 0)
        ≤ amount * c.platformFeeBps / LabToken.BPS_DENOMINATOR +
          amount * c.creatorFeeBps / LabToken.BPS_DENOMINATOR +
          amount * c.royaltyFeeBps / LabToken.BPS_DENOMINATOR +
          amount * c.referrerFeeBps / LabToken.BPS_DENOMINATOR := Nat.add_le_add_left step0 _
      _ ≤ (amount * c.platformFeeBps + amount * c.creatorFeeBps + amount * c.royaltyFeeBps +
            amount * c.referrerFeeBps) / LabToken.BPS_DENOMINATOR := four_div_le _ _ _ _ _
      _ = amount * (c.platformFeeBps + c.creatorFeeBps + c.royaltyFeeBps + c.referrerFeeBps) /
            LabToken.BPS_DENOMINATOR := by ring_nf
      _ ≤ amount * 10000 / LabToken.BPS_DENOMINATOR :=
          Nat.div_le_div_right (Nat.mul_le_mul_left _ (le_trans hsum (by norm_num)))
      _ = amount := by
          simp [LabToken.BPS_DENOMINATOR]
  refine ⟨key, ?_⟩
  unfold LabToken.applyFees
  rw [if_neg (not_not_intro hv), if_neg (Nat.not_lt.mpr key)]
  split <;> simp

/-- Witness for C4 at a concrete accepted configuration. -/
theorem applyFees_fees_bounded_witness :
    LabToken.feeTotal 100 ⟨250, 250, 250, 250⟩ 5 ≤ 100 ∧
    LabToken.applyFees 100 ⟨250, 250, 250, 250⟩ 5 ≠ Except.error LabToken.FeeError.FeesExceedAmount :=
  applyFees_fees_bounded 100 5 ⟨250, 250, 250, 250⟩ (by decide) (by decide)

/-! ## C7: same-block purchases revert with MustWaitNextBlock -/

/-- **C7**: whenever the caller's registered approval snapshot has
`blockNum >= block.number` and the preceding slot-bounds, sponsor, and
allowance checks pass, `slotBuy` reverts with `MustWaitNextBlock` (the
reverted transaction leaves the storage unchanged); in particular a purchase
in the same block as `registerApproval` reverts. -/
theorem slotBuy_must_wait_next_block (cfg : GainDist.DistConfig) (st : GainDist.DistState)
    (fuel blockNumber bal buyer slotId sponsor : Nat)
    (hs1 : slotId ≠ 0) (hs2 : slotId ≤ GainDist.MAX_SLOT) (hsp : sponsor ≠ 0)
    (hallow : GainDist.SLOT_PRICE cfg.tokenDecimals slotId ≤ (st.allowRec buyer).1)
    (hblock : blockNumber ≤ (st.allowRec buyer).2) :
    GainDist.slotBuy cfg st fuel blockNumber bal buyer slotId sponsor =
      Except.error GainDist.DistError.MustWaitNextBlock := by
  have h1 : ¬(slotId = 0 ∨ GainDist.MAX_SLOT < slotId) := by
    simp only [GainDist.MAX_SLOT] at *
    omega
  simp [GainDist.slotBuy, h1, hsp, Nat.not_lt.mpr hallow, hblock]

/-- Witness for C7: user 1 registers an approval at block 5 and tries to buy
slot 1 in the same block 5; the purchase reverts. -/
theorem slotBuy_must_wait_next_block_witness :
    GainDist.registerApproval GainDist.initState 1 100 5 = Except.ok stC7 ∧
    GainDist.slotBuy ⟨0, 90, 91⟩ stC7 10 5 100 1 1 2 =
      Except.error GainDist.DistError.MustWaitNextBlock :=
  ⟨rfl, slotBuy_must_wait_next_block ⟨0, 90, 91⟩ stC7 10 5 100 1 1 2 (by decide) (by decide)
    (by decide) (by decide) (by decide)⟩

/-! ## C10: backend auth and validation middleware -/

/-- **C10**: on an admin route, a missing or mismatching `X-API-Key` header
yields status 401; once the key check passes, a body rejected by the zod
schema yields 400 with the first issue's message; non-admin routes validate
the body directly; and because `requireApiKey` is registered before
`validateBody`, a request failing both checks receives 401. -/
theorem backend_admin_auth_and_validation {α β : Type} (adminKey : String)
    (schema : α → Except (List String) β) (handler : β → Backend.HttpResponse)
    (header : Option String) (body : α) (issues : List String) :
    ((header = none ∨ header ≠ some adminKey) →
      (Backend.runAdminPost adminKey schema handler header body).status = 401) ∧
    (header = some adminKey → adminKey ≠ "" → schema body = Except.error issues →
      Backend.runAdminPost adminKey schema handler header body =
        ⟨400, issues.headD "Invalid request body"⟩) ∧
    (schema body = Except.error issues →
      Backend.runPost schema handler body = ⟨400, issues.headD "Invalid request body"⟩) ∧
    ((header = none ∨ header ≠ some adminKey) → schema body = Except.error issues →
      (Backend.runAdminPost adminKey schema handler header body).status = 401) := by
  have hkey : ∀ h', (h' = none ∨ h' ≠ some adminKey) →
      Backend.requireApiKey adminKey h' = some ⟨401, "Unauthorized"⟩ := by
    intro h' hh
    unfold Backend.requireApiKey
    rcases h' with _ | s
    · simp
    · rcases hh with h | h
      · exact absurd h (by simp)
      · simp [h]
  refine ⟨?_, ?_, ?_, ?_⟩
  · intro hh
    simp [Backend.runAdminPost, hkey header hh]
  · intro hh hk h3
    have hpass : Backend.requireApiKey adminKey header = none := by
      subst hh
      unfold Backend.requireApiKey
      simp [hk]
    simp [Backend.runAdminPost, hpass, Backend.validateBody, h3]
  · intro h3
    simp [Backend.runPost, Backend.validateBody, h3]
  · intro hh _
    simp [Backend.runAdminPost, hkey header hh]

/-- Witness for C10: a wrong key gets 401, a good key with a bad body gets
400 carrying the first issue message, and a non-admin route with a bad body
gets the same 400. -/
theorem backend_admin_auth_and_validation_witness :
    (Backend.runAdminPost "secret" (fun _ : Nat => (Except.error ["bad field"] : Except (List String) Nat))
        (fun _ => ⟨200, "ok"⟩) (some "wrong") 0).status = 401 ∧
    Backend.runAdminPost "secret" (fun _ : Nat => (Except.error ["bad field"] : Except (List String) Nat))
        (fun _ => ⟨200, "ok"⟩) (some "secret") 0 = ⟨400, "bad field"⟩ ∧
    Backend.runPost (fun _ : Nat => (Except.error ["bad field"] : Except (List String) Nat))
        (fun _ => ⟨200, "ok"⟩) 0 = ⟨400, "bad field"⟩ :=
  ⟨(backend_admin_auth_and_validation "secret"
      (fun _ : Nat => (Except.error ["bad field"] : Except (List String) Nat))
      (fun _ => ⟨200, "ok"⟩) (some "wrong") 0 ["bad field"]).1 (Or.inr (by decide)),
   (backend_admin_auth_and_validation "secret"
      (fun _ : Nat => (Except.error ["bad field"] : Except (List String) Nat))
      (fun _ => ⟨200, "ok"⟩) (some "secret") 0 ["bad field"]).2.1 rfl (by decide) rfl,
   (backend_admin_auth_and_validation "secret"
      (fun _ : Nat => (Except.error ["bad field"] : Except (List String) Nat))
      (fun _ => ⟨200, "ok"⟩) none 0 ["bad field"]).2.2.1 rfl⟩

/-! ## C1: upline share routing by spillover -/

/-- **C1**: in every successful `slotBuy` at price `p`, the third transfer is
the 70% upline share `⌊p*7000/10000⌋`, routed to the sponsor's own referrer
when `childrenOf[sponsor].length` is 1 or 3 after the buyer's referral
registration, to the sponsor itself for any other child count, and to the
flash wallet when the spill target `referrerOf[sponsor]` is the zero
address. -/
theorem slotBuy_upline_spillover {cfg : GainDist.DistConfig} {st : GainDist.DistState}
    {fuel blockNumber bal buyer slotId sponsor : Nat}
    {out : GainDist.DistState × List (Nat × Nat)}
    (h : GainDist.slotBuy cfg st fuel blockNumber bal buyer slotId sponsor = Except.ok out) :
    out.2.get? 2 = some
      (if (out.1.children sponsor).length = 1 ∨ (out.1.children sponsor).length = 3 then
         (if out.1.refOf sponsor = 0 then cfg.flashWallet else out.1.refOf sponsor)
       else sponsor,
       GainDist.SLOT_PRICE cfg.tokenDecimals slotId * GainDist.UPLINE_BPS / GainDist.BPS) := by
  obtain ⟨_, _, hsp, _, paid, xfers, _, _, hlist⟩ := GainDist.slotBuy_ok_elim h
  rw [hlist]
  by_cases hpos : (out.1.children sponsor).length = 1 ∨ (out.1.children sponsor).length = 3
  · by_cases hz : out.1.refOf sponsor = 0
    · simp [GainDist.resolveUplineRecipient, hpos, hz, List.get?]
    · simp [GainDist.resolveUplineRecipient, hpos, hz, List.get?]
  · simp [GainDist.resolveUplineRecipient, hpos, hsp, List.get?]

/-- Witness for C1: in `exS0`, user 1 buys slot 11 under sponsor 2; 2 gains
its first child, and `referrerOf[2]` is zero, so the 70% share (8960) spills
to the flash wallet 91. -/
theorem slotBuy_upline_spillover_witness :
    (GainDist.buyOut cfgEx exS0 10 2 100000 1 11 2).2.get? 2 = some (91, 8960) :=
  slotBuy_upline_spillover
    (GainDist.slotBuy_eq_ok_buyOut cfgEx exS0 10 2 100000 1 11 2 (by decide))

/-! ## C8: total USDT outflow of a slotBuy -/

namespace GainDist

/-- In `_payRoyalty`, the running `total` equals the sum of the transfer
amounts performed. -/
theorem payRoyaltyLevels_total_eq_sum (st : DistState) (fuel sponsor price : Nat) :
    ∀ levels t xs, payRoyaltyLevels st fuel sponsor price levels = some (t, xs) →
      t = (xs.map Prod.snd).sum := by
  intro levels
  induction levels with
  | nil =>
    intro t xs h
    simp [payRoyaltyLevels] at h
    obtain ⟨h1, h2⟩ := h
    subst h2
    simp [← h1]
  | cons l rest ih =>
    intro t xs h
    unfold payRoyaltyLevels at h
    split_ifs at h with hbp
    · exact ih t xs h
    · cases hw : royaltyWalk st l fuel sponsor with
      | none => rw [hw] at h; exact absurd h (by simp)
      | some ob =>
        rw [hw] at h
        cases ob with
        | none =>
          dsimp only at h
          exact ih t xs h
        | some b =>
          dsimp only at h
          cases hr : payRoyaltyLevels st fuel sponsor price rest with
          | none => rw [hr] at h; exact absurd h (by simp)
          | some p =>
            rw [hr] at h
            obtain ⟨t0, xs0⟩ := p
            dsimp only at h
            injection h with h'
            have h1 : price * ROYALTY_BP l / BPS + t0 = t := congrArg Prod.fst h'
            have h2 : (b, price * ROYALTY_BP l / BPS) :: xs0 = xs := congrArg Prod.snd h'
            subst h1
            subst h2
            rw [ih t0 xs0 hr]
            simp

/-- **C8**: every successful `slotBuy` at price `p` transfers out exactly
`⌊7000p/10000⌋ + ⌊1200p/10000⌋ + ⌊300p/10000⌋ + ⌊1500p/10000⌋` USDT, which
is at most `p` (the 70/12/3/15 percent basis points sum to exactly 10000);
the truncation remainder stays with the contract, whose only state-changing
entry points are `registerApproval` (no transfers) and `slotBuy`. -/
theorem slotBuy_total_outflow {cfg : DistConfig} {st : DistState}
    {fuel blockNumber bal buyer slotId sponsor : Nat} {out : DistState × List (Nat × Nat)}
    (h : slotBuy cfg st fuel blockNumber bal buyer slotId sponsor = Except.ok out) :
    (out.2.map Prod.snd).sum =
      SLOT_PRICE cfg.tokenDecimals slotId * 7000 / 10000 +
      SLOT_PRICE cfg.tokenDecimals slotId * 1200 / 10000 +
      SLOT_PRICE cfg.tokenDecimals slotId * 300 / 10000 +
      SLOT_PRICE cfg.tokenDecimals slotId * 1500 / 10000 ∧
    (out.2.map Prod.snd).sum ≤ SLOT_PRICE cfg.tokenDecimals slotId := by
  obtain ⟨_, _, _, _, paid, xfers, hpay, hple, hlist⟩ := slotBuy_ok_elim h
  have hsum : paid = (xfers.map Prod.snd).sum :=
    payRoyaltyLevels_total_eq_sum _ _ _ _ _ _ _ hpay
  simp only [BPS] at hple hlist
  have key : (out.2.map Prod.snd).sum =
      SLOT_PRICE cfg.tokenDecimals slotId * 7000 / 10000 +
      SLOT_PRICE cfg.tokenDecimals slotId * 1200 / 10000 +
      SLOT_PRICE cfg.tokenDecimals slotId * 300 / 10000 +
      SLOT_PRICE cfg.tokenDecimals slotId * 1500 / 10000 := by
    rw [hlist]
    by_cases hup : resolveUplineRecipient out.1 sponsor ≠ 0 <;>
      by_cases hlf : 0 < SLOT_PRICE cfg.tokenDecimals slotId * 1500 / 10000 - paid <;>
        (simp [hup, hlf, UPLINE_BPS, DIRECT_BPS, CREATOR_BPS, ← hsum]; omega)
  refine ⟨key, ?_⟩
  rw [key]
  calc SLOT_PRICE cfg.tokenDecimals slotId * 7000 / 10000 +
        SLOT_PRICE cfg.tokenDecimals slotId * 1200 / 10000 +
        SLOT_PRICE cfg.tokenDecimals slotId * 300 / 10000 +
        SLOT_PRICE cfg.tokenDecimals slotId * 1500 / 10000
      ≤ (SLOT_PRICE cfg.tokenDecimals slotId * 7000 +
          SLOT_PRICE cfg.tokenDecimals slotId * 1200 +
          SLOT_PRICE cfg.tokenDecimals slotId * 300 +
          SLOT_PRICE cfg.tokenDecimals slotId * 1500) / 10000 := four_div_le _ _ _ _ _
    _ = SLOT_PRICE cfg.tokenDecimals slotId * 10000 / 10000 := by
        rw [show SLOT_PRICE cfg.tokenDecimals slotId * 7000 +
            SLOT_PRICE cfg.tokenDecimals slotId * 1200 +
            SLOT_PRICE cfg.tokenDecimals slotId * 300 +
            SLOT_PRICE cfg.tokenDecimals slotId * 1500 =
            SLOT_PRICE cfg.tokenDecimals slotId * 10000 from by ring]
    _ = SLOT_PRICE cfg.tokenDecimals slotId := by omega

end GainDist

/-- Witness for C8: the cycle-closing purchase of user 2 at price 20 pays out
14 + 2 + 0 + 3 = 19 of the 20 units, and 1 unit stays with the contract. -/
theorem slotBuy_total_outflow_witness :
    ((GainDist.buyOut cfgEx exS5 10 2 100000 2 1 1).2.map Prod.snd).sum = 19 ∧
    ((GainDist.buyOut cfgEx exS5 10 2 100000 2 1 1).2.map Prod.snd).sum ≤ 20 :=
  GainDist.slotBuy_total_outflow
    (GainDist.slotBuy_eq_ok_buyOut cfgEx exS5 10 2 100000 2 1 1 (by decide))

/-! ## Field lemmas for the _registerReferral blocks -/

namespace GainDist

theorem referralLink_ok_fields {st st1 : DistState} {buyer sponsor : Nat}
    (h : referralLink st buyer sponsor = Except.ok st1) :
    st1.userSlot = st.userSlot ∧ st1.qualifiedDirects = st.qualifiedDirects ∧
    st1.directMaxSlot = st.directMaxSlot ∧ st1.registeredAllowance = st.registeredAllowance := by
  unfold referralLink at h
  split_ifs at h with h0 h1
  · injection h with h'
    subst h'
    exact ⟨rfl, rfl, rfl, rfl⟩
  · injection h with h'
    subst h'
    exact ⟨rfl, rfl, rfl, rfl⟩

theorem referralLink_ok_refOf {st st1 : DistState} {buyer sponsor : Nat}
    (h : referralLink st buyer sponsor = Except.ok st1) :
    (st.refOf buyer = 0 ∧
      (∀ u, st1.refOf u = if u = buyer then sponsor else st.refOf u) ∧
      st1.children sponsor = st.children sponsor ++ [buyer] ∧
      (∀ s, s ≠ sponsor → st1.children s = st.children s)) ∨
    (st.refOf buyer = sponsor ∧ st1 = st) := by
  unfold referralLink at h
  split_ifs at h with h0 h1
  · injection h with h'
    subst h'
    refine Or.inl ⟨h0, ?_, ?_, ?_⟩
    · intro u
      simp [DistState.refOf, mapSet]
    · simp [DistState.children, mapSet]
    · intro s hs
      simp [DistState.children, mapSet, hs]
  · injection h with h'
    subst h'
    exact Or.inr ⟨not_not.mp h1, rfl⟩

theorem updateUserSlot_fields (st : DistState) (buyer slotId : Nat) :
    (updateUserSlot st buyer slotId).referrerOf = st.referrerOf ∧
    (updateUserSlot st buyer slotId).childrenOf = st.childrenOf ∧
    (updateUserSlot st buyer slotId).qualifiedDirects = st.qualifiedDirects ∧
    (updateUserSlot st buyer slotId).directMaxSlot = st.directMaxSlot ∧
    (updateUserSlot st buyer slotId).registeredAllowance = st.registeredAllowance := by
  unfold updateUserSlot
  split_ifs <;> exact ⟨rfl, rfl, rfl, rfl, rfl⟩

theorem updateUserSlot_slotOf (st : DistState) (buyer slotId u : Nat) :
    (updateUserSlot st buyer slotId).slotOf u =
      if u = buyer then max (st.slotOf buyer) slotId else st.slotOf u := by
  unfold updateUserSlot
  by_cases h1 : st.slotOf buyer < slotId
  · rw [if_pos h1]
    by_cases h2 : u = buyer
    · subst h2
      simp only [DistState.slotOf, mapGet_mapSet, if_pos rfl]
      exact (Nat.max_eq_right (Nat.le_of_lt h1)).symm
    · simp only [DistState.slotOf, mapGet_mapSet, if_neg h2]
  · rw [if_neg h1]
    by_cases h2 : u = buyer
    · subst h2
      rw [if_pos rfl]
      exact (Nat.max_eq_left (Nat.le_of_not_lt h1)).symm
    · rw [if_neg h2]

theorem updateQualified_fields (st : DistState) (buyer sponsor slotId : Nat) :
    (updateQualified st buyer sponsor slotId).referrerOf = st.referrerOf ∧
    (updateQualified st buyer sponsor slotId).childrenOf = st.childrenOf ∧
    (updateQualified st buyer sponsor slotId).userSlot = st.userSlot ∧
    (updateQualified st buyer sponsor slotId).registeredAllowance = st.registeredAllowance := by
  unfold updateQualified
  split_ifs <;> exact ⟨rfl, rfl, rfl, rfl⟩

theorem registerReferral_ok_decompose {st st' : DistState} {buyer sponsor slotId : Nat}
    (h : registerReferral st buyer sponsor slotId = Except.ok st') :
    ∃ st1, referralLink st buyer sponsor = Except.ok st1 ∧
      st' = updateQualified (updateUserSlot st1 buyer slotId) buyer sponsor slotId := by
  unfold registerReferral at h
  cases hl : referralLink st buyer sponsor with
  | error e =>
    rw [hl] at h
    exact absurd h (by simp)
  | ok st1 =>
    rw [hl] at h
    dsimp only at h
    injection h with h'
    exact ⟨st1, rfl, h'.symm⟩

/-- `userSlot` after `_registerReferral`: the buyer's slot becomes the max of
the old slot and the purchased slot, no slot decreases, and other users'
slots are untouched. -/
theorem registerReferral_slotOf {st st' : DistState} {buyer sponsor slotId : Nat}
    (h : registerReferral st buyer sponsor slotId = Except.ok st') :
    st'.slotOf buyer = max (st.slotOf buyer) slotId ∧
    ∀ u, u ≠ buyer → st'.slotOf u = st.slotOf u := by
  obtain ⟨st1, hl, hdef⟩ := registerReferral_ok_decompose h
  have hf1 := (referralLink_ok_fields hl).1
  have hf2 := (updateQualified_fields (updateUserSlot st1 buyer slotId) buyer sponsor slotId).2.2.1
  have hslot : ∀ u, st'.slotOf u = (updateUserSlot st1 buyer slotId).slotOf u := by
    intro u
    rw [hdef]
    simp [DistState.slotOf, hf2]
  have hslot1 : ∀ u, st1.slotOf u = st.slotOf u := by
    intro u
    simp [DistState.slotOf, hf1]
  constructor
  · rw [hslot buyer, updateUserSlot_slotOf, if_pos rfl, hslot1]
  · intro u hu
    rw [hslot u, updateUserSlot_slotOf, if_neg hu, hslot1]

end GainDist

/-! ## C6: userSlot is monotonically non-decreasing -/

/-- **C6**: after a successful `slotBuy(slotId, sponsor)` by `buyer`,
`userSlot[buyer]` equals the maximum of its previous value and `slotId`,
other users' slots are unchanged, no slot ever decreases, and
`registerApproval` (the only other state-changing entry point) never touches
`userSlot`. -/
theorem userSlot_monotone :
    (∀ (cfg : GainDist.DistConfig) (st : GainDist.DistState)
       (fuel blockNumber bal buyer slotId sponsor : Nat)
       (out : GainDist.DistState × List (Nat × Nat)),
       GainDist.slotBuy cfg st fuel blockNumber bal buyer slotId sponsor = Except.ok out →
       out.1.slotOf buyer = max (st.slotOf buyer) slotId ∧
       ∀ u, st.slotOf u ≤ out.1.slotOf u) ∧
    (∀ (st st' : GainDist.DistState) (user allow blockNumber : Nat),
       GainDist.registerApproval st user allow blockNumber = Except.ok st' →
       ∀ u, st'.slotOf u = st.slotOf u) := by
  constructor
  · intro cfg st fuel blockNumber bal buyer slotId sponsor out h
    obtain ⟨_, _, _, hreg, _⟩ := GainDist.slotBuy_ok_elim h
    obtain ⟨hbuyer, hother⟩ := GainDist.registerReferral_slotOf hreg
    refine ⟨hbuyer, ?_⟩
    intro u
    by_cases hu : u = buyer
    · subst hu
      rw [hbuyer]
      exact Nat.le_max_left _ _
    · rw [hother u hu]
  · intro st st' user allow blockNumber h u
    unfold GainDist.registerApproval at h
    by_cases h0 : allow = 0
    · rw [if_pos h0] at h
      exact absurd h (by simp)
    · rw [if_neg h0] at h
      injection h with h'
      subst h'
      rfl

/-- Witness for C6: user 3's purchase of slot 11 in `exS1` raises its slot
from 0 to 11, and user 1's is untouched. -/
theorem userSlot_monotone_witness :
    (GainDist.buyOut cfgEx exS1 10 2 100000 3 11 1).1.slotOf 3 = max (exS1.slotOf 3) 11 ∧
    exS1.slotOf 1 ≤ (GainDist.buyOut cfgEx exS1 10 2 100000 3 11 1).1.slotOf 1 :=
  ⟨(userSlot_monotone.1 cfgEx exS1 10 2 100000 3 11 1 _
      (GainDist.slotBuy_eq_ok_buyOut cfgEx exS1 10 2 100000 3 11 1 (by decide))).1,
   (userSlot_monotone.1 cfgEx exS1 10 2 100000 3 11 1 _
      (GainDist.slotBuy_eq_ok_buyOut cfgEx exS1 10 2 100000 3 11 1 (by decide))).2 1⟩

/-! ## C9: termination of the royalty walk under acyclicity -/

namespace GainDist

/-- If the referrer chain from `walker` reaches the zero address within `n`
steps, the royalty walk with more than `n` fuel never exhausts its fuel. -/
theorem royaltyWalk_fueled (st : DistState) (level : Nat) :
    ∀ n walker fuel, refIter st n walker = 0 → n < fuel →
      royaltyWalk st level fuel walker ≠ none := by
  intro n
  induction n with
  | zero =>
    intro walker fuel h0 hf
    cases fuel with
    | zero => omega
    | succ f =>
      have hw : walker = 0 := h0
      simp [royaltyWalk, hw]
  | succ n ih =>
    intro walker fuel h0 hf
    cases fuel with
    | zero => omega
    | succ f =>
      by_cases hw : walker = 0
      · simp [royaltyWalk, hw]
      · by_cases hq : qualifies st level walker
        · simp [royaltyWalk, hw, hq]
        · have hstep : royaltyWalk st level (f + 1) walker =
              royaltyWalk st level f (st.refOf walker) := by
            simp [royaltyWalk, hw, hq]
          rw [hstep]
          have h0' : refIter st n (st.refOf walker) = 0 := h0
          exact ih (st.refOf walker) f h0' (Nat.lt_of_succ_lt_succ hf)

/-- Under the same bound, `_payRoyalty` never exhausts its fuel. -/
theorem payRoyaltyLevels_ne_none (st : DistState) (sponsor price n fuel : Nat)
    (h0 : refIter st n sponsor = 0) (hf : n < fuel) :
    ∀ levels, payRoyaltyLevels st fuel sponsor price levels ≠ none := by
  intro levels
  induction levels with
  | nil => simp [payRoyaltyLevels]
  | cons l rest ih =>
    unfold payRoyaltyLevels
    split_ifs with hbp
    · exact ih
    · cases hw : royaltyWalk st l fuel sponsor with
      | none => exact absurd hw (royaltyWalk_fueled st l n sponsor fuel h0 hf)
      | some ob =>
        cases ob with
        | none =>
          dsimp only
          exact ih
        | some b =>
          dsimp only
          cases hr : payRoyaltyLevels st fuel sponsor price rest with
          | none => exact absurd hr ih
          | some p => simp

end GainDist

/-- **C9**: the referrer-chain walk of `_payRoyalty` terminates on every
state whose referrer chains are acyclic (following `referrerOf` from the
start address reaches the zero address within `n` steps), and under that
precondition on the post-registration state a `slotBuy` never runs out of
gas, so its embedding is total; moreover `_registerReferral` accepts a first
purchase naming the buyer as its own sponsor, so acyclicity is a genuine
precondition rather than a consequence of the input checks. -/
theorem payRoyalty_walk_terminates :
    (∀ (st : GainDist.DistState) (level n walker fuel : Nat),
       GainDist.refIter st n walker = 0 → n < fuel →
       GainDist.royaltyWalk st level fuel walker ≠ none) ∧
    (∀ (cfg : GainDist.DistConfig) (st st1 : GainDist.DistState)
       (blockNumber bal buyer slotId sponsor n fuel : Nat),
       GainDist.registerReferral st buyer sponsor slotId = Except.ok st1 →
       GainDist.refIter st1 n sponsor = 0 → n < fuel →
       GainDist.slotBuy cfg st fuel blockNumber bal buyer slotId sponsor ≠
         Except.error GainDist.DistError.OutOfGas) ∧
    (GainDist.registerReferral GainDist.initState 1 1 1 =
       Except.ok (GainDist.registerReferralOut GainDist.initState 1 1 1) ∧
     (GainDist.registerReferralOut GainDist.initState 1 1 1).refOf 1 = 1) := by
  refine ⟨GainDist.royaltyWalk_fueled, ?_, rfl, by decide⟩
  intro cfg st st1 blockNumber bal buyer slotId sponsor n fuel hreg h0 hf
  unfold GainDist.slotBuy
  split_ifs with h1 h2 h3 h4 h5 <;> try simp
  rw [hreg]
  dsimp only
  cases hpay : GainDist.payRoyalty st1 fuel sponsor
      (GainDist.SLOT_PRICE cfg.tokenDecimals slotId) with
  | none =>
    exact absurd (by simpa [GainDist.payRoyalty] using hpay)
      (GainDist.payRoyaltyLevels_ne_none st1 sponsor
        (GainDist.SLOT_PRICE cfg.tokenDecimals slotId) n fuel h0 hf _)
  | some pr =>
    obtain ⟨paid, xfers⟩ := pr
    dsimp only
    split_ifs <;> simp

/-- Witness for C9: in `stC7`, user 1's first purchase registers sponsor 2
whose chain ends after one step, so the walk and the whole purchase
terminate; and the self-sponsorship fact is checked on `initState`. -/
theorem payRoyalty_walk_terminates_witness :
    GainDist.royaltyWalk exS0 5 2 7 ≠ none ∧
    GainDist.slotBuy cfgEx stC7 10 6 100 1 1 2 ≠
      Except.error GainDist.DistError.OutOfGas :=
  ⟨payRoyalty_walk_terminates.1 exS0 5 1 7 2 (by decide) (by decide),
   payRoyalty_walk_terminates.2.1 cfgEx stC7 (GainDist.registerReferralOut stC7 1 2 1)
     6 100 1 1 2 1 10 rfl (by decide) (by decide)⟩

/-! ## C2: royalty beneficiary resolution -/

namespace GainDist

/-- A finished royalty walk returns exactly the first qualifying member of
the referrer chain (`List.find?` over `chainList`). -/
theorem royaltyWalk_eq_find (st : DistState) (level : Nat) :
    ∀ fuel walker r, royaltyWalk st level fuel walker = some r →
      r = (chainList st fuel walker).find? (qualifies st level) := by
  intro fuel
  induction fuel with
  | zero =>
    intro walker r h
    simp [royaltyWalk] at h
  | succ fuel ih =>
    intro walker r h
    by_cases hw : walker = 0
    · simp [royaltyWalk, hw] at h
      simp [chainList, hw, ← h]
    · by_cases hq : qualifies st level walker
      · simp [royaltyWalk, hw, hq] at h
        simp [chainList, hw, List.find?_cons_of_pos _ hq, ← h]
      · have hstep : royaltyWalk st level (fuel + 1) walker =
            royaltyWalk st level fuel (st.refOf walker) := by
          simp [royaltyWalk, hw, hq]
        rw [hstep] at h
        have hrec := ih (st.refOf walker) r h
        simp [chainList, hw, List.find?_cons_of_neg _ (by simpa using hq), hrec]

/-- A finished `_payRoyalty` pays exactly the transfers of `royaltySpec`. -/
theorem payRoyaltyLevels_eq_spec (st : DistState) (fuel sponsor price : Nat) :
    ∀ levels t xs, payRoyaltyLevels st fuel sponsor price levels = some (t, xs) →
      xs = levels.filterMap (fun l =>
        if ROYALTY_BP l = 0 then none
        else
          match (chainList st fuel sponsor).find? (qualifies st l) with
          | some b => some (b, price * ROYALTY_BP l / BPS)
          | none => none) := by
  intro levels
  induction levels with
  | nil =>
    intro t xs h
    simp [payRoyaltyLevels] at h
    simp [h.2]
  | cons l rest ih =>
    intro t xs h
    unfold payRoyaltyLevels at h
    split_ifs at h with hbp
    · simpa [List.filterMap_cons, hbp] using ih t xs h
    · cases hw : royaltyWalk st l fuel sponsor with
      | none => rw [hw] at h; exact absurd h (by simp)
      | some ob =>
        rw [hw] at h
        have hfind := royaltyWalk_eq_find st l fuel sponsor _ hw
        cases ob with
        | none =>
          dsimp only at h
          simpa [List.filterMap_cons, hbp, ← hfind] using ih t xs h
        | some b =>
          dsimp only at h
          cases hr : payRoyaltyLevels st fuel sponsor price rest with
          | none => rw [hr] at h; exact absurd h (by simp)
          | some p =>
            rw [hr] at h
            obtain ⟨t0, xs0⟩ := p
            dsimp only at h
            injection h with h'
            have h2 : (b, price * ROYALTY_BP l / BPS) :: xs0 = xs := congrArg Prod.snd h'
            subst h2
            simp [List.filterMap_cons, hbp, ← hfind, ih t0 xs0 hr]

end GainDist

/-- **C2**: in every successful `slotBuy` at price `p`, each royalty level
5..11 pays `⌊p*ROYALTY_BP[level]/10000⌋` to the first member of the referrer
chain starting at the sponsor that has `userSlot` at least the level and at
least 4 qualified directs at that level (no transfer when no chain member
qualifies); the royalties paid never exceed `⌊p*1500/10000⌋`, and the paid
total plus the flash-wallet leftover equals `⌊p*1500/10000⌋` exactly. -/
theorem slotBuy_royalty_resolution {cfg : GainDist.DistConfig} {st : GainDist.DistState}
    {fuel blockNumber bal buyer slotId sponsor : Nat}
    {out : GainDist.DistState × List (Nat × Nat)}
    (h : GainDist.slotBuy cfg st fuel blockNumber bal buyer slotId sponsor = Except.ok out) :
    ((GainDist.royaltySpec out.1 fuel sponsor
        (GainDist.SLOT_PRICE cfg.tokenDecimals slotId)).map Prod.snd).sum ≤
      GainDist.SLOT_PRICE cfg.tokenDecimals slotId * 1500 / GainDist.BPS ∧
    ((GainDist.royaltySpec out.1 fuel sponsor
        (GainDist.SLOT_PRICE cfg.tokenDecimals slotId)).map Prod.snd).sum +
      (GainDist.SLOT_PRICE cfg.tokenDecimals slotId * 1500 / GainDist.BPS -
        ((GainDist.royaltySpec out.1 fuel sponsor
            (GainDist.SLOT_PRICE cfg.tokenDecimals slotId)).map Prod.snd).sum) =
      GainDist.SLOT_PRICE cfg.tokenDecimals slotId * 1500 / GainDist.BPS ∧
    out.2 =
      (sponsor, GainDist.SLOT_PRICE cfg.tokenDecimals slotId * GainDist.DIRECT_BPS / GainDist.BPS) ::
      (cfg.creatorWallet,
        GainDist.SLOT_PRICE cfg.tokenDecimals slotId * GainDist.CREATOR_BPS / GainDist.BPS) ::
      (if GainDist.resolveUplineRecipient out.1 sponsor ≠ 0 then
          (GainDist.resolveUplineRecipient out.1 sponsor,
            GainDist.SLOT_PRICE cfg.tokenDecimals slotId * GainDist.UPLINE_BPS / GainDist.BPS)
        else (cfg.flashWallet,
          GainDist.SLOT_PRICE cfg.tokenDecimals slotId * GainDist.UPLINE_BPS / GainDist.BPS)) ::
      (GainDist.royaltySpec out.1 fuel sponsor (GainDist.SLOT_PRICE cfg.tokenDecimals slotId) ++
        (if 0 < GainDist.SLOT_PRICE cfg.tokenDecimals slotId * 1500 / GainDist.BPS -
              ((GainDist.royaltySpec out.1 fuel sponsor
                  (GainDist.SLOT_PRICE cfg.tokenDecimals slotId)).map Prod.snd).sum then
            [(cfg.flashWallet,
              GainDist.SLOT_PRICE cfg.tokenDecimals slotId * 1500 / GainDist.BPS -
                ((GainDist.royaltySpec out.1 fuel sponsor
                    (GainDist.SLOT_PRICE cfg.tokenDecimals slotId)).map Prod.snd).sum)]
          else [])) := by
  obtain ⟨_, _, _, _, paid, xfers, hpay, hple, hlist⟩ := GainDist.slotBuy_ok_elim h
  have hspec : xfers = GainDist.royaltySpec out.1 fuel sponsor
      (GainDist.SLOT_PRICE cfg.tokenDecimals slotId) :=
    GainDist.payRoyaltyLevels_eq_spec _ _ _ _ _ _ _ hpay
  have hsum : paid = (xfers.map Prod.snd).sum :=
    GainDist.payRoyaltyLevels_total_eq_sum _ _ _ _ _ _ _ hpay
  rw [hspec] at hsum hlist
  rw [hsum] at hlist hple
  exact ⟨hple, by omega, hlist⟩

/-- Witness for C2: the cycle-closing purchase of user 2 in `exS5`, where
user 1 qualifies at every royalty level. -/
theorem slotBuy_royalty_resolution_witness :
    ((GainDist.royaltySpec exS6 10 1 20).map Prod.snd).sum ≤ 20 * 1500 / GainDist.BPS ∧
    ((GainDist.royaltySpec exS6 10 1 20).map Prod.snd).sum +
      (20 * 1500 / GainDist.BPS - ((GainDist.royaltySpec exS6 10 1 20).map Prod.snd).sum) =
      20 * 1500 / GainDist.BPS ∧
    (GainDist.buyOut cfgEx exS5 10 2 100000 2 1 1).2 =
      (1, 20 * GainDist.DIRECT_BPS / GainDist.BPS) ::
      (90, 20 * GainDist.CREATOR_BPS / GainDist.BPS) ::
      (if GainDist.resolveUplineRecipient exS6 1 ≠ 0 then
          (GainDist.resolveUplineRecipient exS6 1, 20 * GainDist.UPLINE_BPS / GainDist.BPS)
        else (91, 20 * GainDist.UPLINE_BPS / GainDist.BPS)) ::
      (GainDist.royaltySpec exS6 10 1 20 ++
        (if 0 < 20 * 1500 / GainDist.BPS - ((GainDist.royaltySpec exS6 10 1 20).map Prod.snd).sum then
            [(91, 20 * 1500 / GainDist.BPS - ((GainDist.royaltySpec exS6 10 1 20).map Prod.snd).sum)]
          else [])) :=
  slotBuy_royalty_resolution
    (GainDist.slotBuy_eq_ok_buyOut cfgEx exS5 10 2 100000 2 1 1 (by decide))

/-! ## C5: qualified-direct counters -/

namespace GainDist

/-- Effect of the qualified-direct bump loop on a single counter. -/
theorem mapGet_bumpRange :
    ∀ (n : Nat) (qd : List ((Nat × Nat) × Nat)) (s lo s' l : Nat),
      mapGet 0 (bumpRange qd s lo n) (s', l) =
        mapGet 0 qd (s', l) + (if s' = s ∧ lo ≤ l ∧ l < lo + n then 1 else 0) := by
  intro n
  induction n with
  | zero =>
    intro qd s lo s' l
    have : ¬(s' = s ∧ lo ≤ l ∧ l < lo + 0) := by omega
    simp [bumpRange, this]
  | succ n ih =>
    intro qd s lo s' l
    have hstep : bumpRange qd s lo (n + 1) =
        bumpRange (mapSet qd (s, lo) (mapGet 0 qd (s, lo) + 1)) s (lo + 1) n := rfl
    rw [hstep, ih, mapGet_mapSet]
    by_cases hp : (s', l) = (s, lo)
    · rw [if_pos hp]
      have hs : s' = s := congrArg Prod.fst hp
      have hl : l = lo := congrArg Prod.snd hp
      subst hs
      subst hl
      split_ifs <;> omega
    · rw [if_neg hp]
      have hne : ¬(s' = s ∧ l = lo) := by
        intro hc
        exact hp (by rw [hc.1, hc.2])
      split_ifs <;> omega

/-- `countP` only depends on the predicate's values on the list. -/
theorem countP_eq_of_agree (p q : Nat → Bool) :
    ∀ L : List Nat, (∀ x ∈ L, p x = q x) → L.countP p = L.countP q := by
  intro L
  induction L with
  | nil => intro _; rfl
  | cons a t ih =>
    intro h
    simp [List.countP_cons, h a (by simp), ih (fun x hx => h x (by simp [hx]))]

/-- Changing a predicate's value at a single member of a duplicate-free list
changes its count by exactly that member's contribution. -/
theorem countP_change_one {c : Nat} {L : List Nat} (hN : L.Nodup) (hm : c ∈ L)
    (p q : Nat → Bool) (hag : ∀ x ∈ L, x ≠ c → p x = q x) :
    L.countP q + (if p c then 1 else 0) = L.countP p + (if q c then 1 else 0) := by
  obtain ⟨l1, l2, rfl⟩ := List.append_of_mem hm
  have hnod := List.nodup_append.mp hN
  have hc2 : c ∉ l2 := (List.nodup_cons.mp hnod.2.1).1
  have hc1 : c ∉ l1 := fun hc => hnod.2.2 hc (by simp)
  have e1 : l1.countP p = l1.countP q :=
    countP_eq_of_agree p q l1 (fun x hx => hag x (by simp [hx]) (fun he => hc1 (he ▸ hx)))
  have e2 : l2.countP p = l2.countP q :=
    countP_eq_of_agree p q l2 (fun x hx => hag x (by simp [hx]) (fun he => hc2 (he ▸ hx)))
  rw [List.countP_append, List.countP_append, List.countP_cons, List.countP_cons, e1, e2]
  split_ifs <;> omega

/-- `ReferralInv` only depends on the four referral-bookkeeping fields. -/
theorem refInv_congr {st st' : DistState}
    (h1 : st'.childrenOf = st.childrenOf) (h2 : st'.referrerOf = st.referrerOf)
    (h3 : st'.directMaxSlot = st.directMaxSlot) (h4 : st'.qualifiedDirects = st.qualifiedDirects)
    (h : ReferralInv st) : ReferralInv st' := by
  obtain ⟨hN, hCI, hD, hQ⟩ := h
  have hch : ∀ s, st'.children s = st.children s := fun s => by
    simp [DistState.children, h1]
  have hrf : ∀ u, st'.refOf u = st.refOf u := fun u => by
    simp [DistState.refOf, h2]
  have hdm : ∀ s c, st'.dms s c = st.dms s c := fun s c => by
    simp [DistState.dms, h3]
  have hqd : ∀ s l, st'.qd s l = st.qd s l := fun s l => by
    simp [DistState.qd, h4]
  refine ⟨fun s => hch s ▸ hN s, fun s c => ?_, fun s c => ?_, fun s l hl => ?_⟩
  · rw [hch, hrf]
    exact hCI s c
  · rw [hdm, hrf]
    exact hD s c
  · rw [hqd, hQ s l hl]
    unfold qdCount
    rw [hch]
    exact countP_eq_of_agree _ _ _ (fun x _ => by rw [hdm])

/-- `directMaxSlot` lookups after the qualified-direct block. -/
theorem updateQualified_dms (st : DistState) (buyer sponsor slotId s c : Nat) :
    (updateQualified st buyer sponsor slotId).dms s c =
      if st.refOf buyer = sponsor ∧ st.dms sponsor buyer < slotId ∧ s = sponsor ∧ c = buyer
      then slotId else st.dms s c := by
  unfold updateQualified
  by_cases h1 : st.refOf buyer = sponsor
  · by_cases h2 : st.dms sponsor buyer < slotId
    · rw [if_pos h1, if_pos h2]
      show mapGet 0 (mapSet st.directMaxSlot (sponsor, buyer) slotId) (s, c) = _
      rw [mapGet_mapSet]
      by_cases h3 : s = sponsor ∧ c = buyer
      · rw [if_pos (by simp [Prod.ext_iff, h3.1, h3.2]), if_pos ⟨h1, h2, h3⟩]
      · rw [if_neg (by simpa [Prod.ext_iff] using h3), if_neg (by tauto)]
        rfl
    · rw [if_pos h1, if_neg h2, if_neg (by tauto)]
  · rw [if_neg h1, if_neg (by tauto)]

/-- `qualifiedDirects` lookups after the qualified-direct block. -/
theorem updateQualified_qd (st : DistState) (buyer sponsor slotId s l : Nat) :
    (updateQualified st buyer sponsor slotId).qd s l =
      st.qd s l +
        (if st.refOf buyer = sponsor ∧ st.dms sponsor buyer < slotId ∧ s = sponsor ∧
            st.dms sponsor buyer + 1 ≤ l ∧ l ≤ slotId then 1 else 0) := by
  unfold updateQualified
  by_cases h1 : st.refOf buyer = sponsor
  · by_cases h2 : st.dms sponsor buyer < slotId
    · rw [if_pos h1, if_pos h2]
      show mapGet 0 (bumpRange st.qualifiedDirects sponsor (st.dms sponsor buyer + 1)
          (slotId - st.dms sponsor buyer)) (s, l) = _
      rw [mapGet_bumpRange]
      have : (s = sponsor ∧ st.dms sponsor buyer + 1 ≤ l ∧
          l < st.dms sponsor buyer + 1 + (slotId - st.dms sponsor buyer)) ↔
          (st.refOf buyer = sponsor ∧ st.dms sponsor buyer < slotId ∧ s = sponsor ∧
            st.dms sponsor buyer + 1 ≤ l ∧ l ≤ slotId) := by
        constructor
        · intro hc
          exact ⟨h1, h2, hc.1, hc.2.1, by omega⟩
        · intro hc
          exact ⟨hc.2.2.1, hc.2.2.2.1, by omega⟩
      rw [if_congr this rfl rfl]
      rfl
    · rw [if_pos h1, if_neg h2, if_neg (by tauto)]
      show st.qd s l = st.qd s l + 0
      omega
  · rw [if_neg h1, if_neg (by tauto)]
    show st.qd s l = st.qd s l + 0
    omega

end GainDist

namespace GainDist

/-- The qualified-direct block preserves the referral invariant. -/
theorem refInv_updateQualified {st : DistState} {buyer sponsor slotId : Nat}
    (hsp : sponsor ≠ 0) (hinv : ReferralInv st) :
    ReferralInv (updateQualified st buyer sponsor slotId) := by
  obtain ⟨hN, hCI, hD, hQ⟩ := hinv
  have hfields := updateQualified_fields st buyer sponsor slotId
  have hch : ∀ s, (updateQualified st buyer sponsor slotId).children s = st.children s :=
    fun s => by simp [DistState.children, hfields.2.1]
  have hrf : ∀ u, (updateQualified st buyer sponsor slotId).refOf u = st.refOf u :=
    fun u => by simp [DistState.refOf, hfields.1]
  refine ⟨fun s => hch s ▸ hN s, fun s c => by rw [hch, hrf]; exact hCI s c, ?_, ?_⟩
  · intro s c hne
    rw [updateQualified_dms] at hne
    rw [hrf]
    by_cases hcond : st.refOf buyer = sponsor ∧ st.dms sponsor buyer < slotId ∧
        s = sponsor ∧ c = buyer
    · obtain ⟨ha, _, hc', hd'⟩ := hcond
      subst hc'
      subst hd'
      exact ⟨hsp, ha⟩
    · rw [if_neg hcond] at hne
      exact hD s c hne
  · intro s l hl
    rw [updateQualified_qd, hQ s l hl]
    by_cases hmain : st.refOf buyer = sponsor ∧ st.dms sponsor buyer < slotId ∧ s = sponsor
    · obtain ⟨href, hlt, hs⟩ := hmain
      subst hs
      have hmem : buyer ∈ st.children s := (hCI s buyer).mpr ⟨hsp, href⟩
      have hag : ∀ x ∈ st.children s, x ≠ buyer →
          (fun c => decide (l ≤ st.dms s c)) x =
          (fun c => decide (l ≤ (updateQualified st buyer s slotId).dms s c)) x := by
        intro x _ hx
        simp only
        rw [updateQualified_dms, if_neg (fun hc => hx hc.2.2.2)]
      have hkey := countP_change_one (hN s) hmem _ _ hag
      have hdb : (updateQualified st buyer s slotId).dms s buyer = slotId := by
        rw [updateQualified_dms, if_pos ⟨href, hlt, rfl, rfl⟩]
      have hCiff : (st.refOf buyer = s ∧ st.dms s buyer < slotId ∧ s = s ∧
          st.dms s buyer + 1 ≤ l ∧ l ≤ slotId) ↔
          (st.dms s buyer + 1 ≤ l ∧ l ≤ slotId) := by
        constructor
        · exact fun hc => hc.2.2.2
        · exact fun hc => ⟨href, hlt, rfl, hc⟩
      rw [if_congr hCiff rfl rfl]
      unfold qdCount
      rw [hch]
      rw [hdb] at hkey
      simp only [decide_eq_true_eq] at hkey ⊢
      split_ifs at hkey ⊢ <;> omega
    · have hcond0 : ∀ c, ¬(st.refOf buyer = sponsor ∧ st.dms sponsor buyer < slotId ∧
          s = sponsor ∧ c = buyer) :=
        fun c hc => hmain ⟨hc.1, hc.2.1, hc.2.2.1⟩
      rw [if_neg (fun hc => hmain ⟨hc.1, hc.2.1, hc.2.2.1⟩), Nat.add_zero]
      unfold qdCount
      rw [hch]
      apply countP_eq_of_agree
      intro x _
      rw [updateQualified_dms, if_neg (hcond0 x)]

/-- The referral-link block preserves the referral invariant. -/
theorem refInv_referralLink {st st1 : DistState} {buyer sponsor : Nat}
    (hsp : sponsor ≠ 0) (hinv : ReferralInv st)
    (h : referralLink st buyer sponsor = Except.ok st1) : ReferralInv st1 := by
  obtain ⟨hN, hCI, hD, hQ⟩ := hinv
  have hfields := referralLink_ok_fields h
  rcases referralLink_ok_refOf h with ⟨h0, hrefs, hchS, hchO⟩ | ⟨_, rfl⟩
  · have hdm : ∀ s c, st1.dms s c = st.dms s c := fun s c => by
      simp [DistState.dms, hfields.2.2.1]
    have hqd : ∀ s l, st1.qd s l = st.qd s l := fun s l => by
      simp [DistState.qd, hfields.2.1]
    have hnotin : ∀ s, buyer ∉ st.children s := by
      intro s hmem
      have hx := (hCI s buyer).mp hmem
      rw [h0] at hx
      exact hx.1 hx.2.symm
    have hdb : ∀ s, st.dms s buyer = 0 := by
      intro s
      by_contra hne
      have hx := hD s buyer hne
      rw [h0] at hx
      exact hx.1 hx.2.symm
    refine ⟨?_, ?_, ?_, ?_⟩
    · intro s
      by_cases hs : s = sponsor
      · subst hs
        rw [hchS, List.nodup_append]
        exact ⟨hN s, List.nodup_singleton buyer,
          List.disjoint_singleton.mpr (hnotin s)⟩
      · rw [hchO s hs]
        exact hN s
    · intro s c
      by_cases hs : s = sponsor
      · subst hs
        rw [hchS, hrefs c]
        by_cases hc : c = buyer
        · subst hc
          simp [hsp]
        · simp only [List.mem_append, List.mem_singleton, hc, or_false, if_neg hc]
          exact hCI s c
      · rw [hchO s hs, hrefs c]
        by_cases hc : c = buyer
        · subst hc
          rw [if_pos rfl]
          constructor
          · intro hmem
            exact absurd hmem (hnotin s)
          · rintro ⟨_, hss⟩
            exact absurd hss.symm hs
        · rw [if_neg hc]
          exact hCI s c
    · intro s c hne
      rw [hdm] at hne
      have hold := hD s c hne
      rw [hrefs c]
      by_cases hc : c = buyer
      · subst hc
        rw [h0] at hold
        exact absurd hold.2.symm hold.1
      · rw [if_neg hc]
        exact hold
    · intro s l hl
      rw [hqd, hQ s l hl]
      unfold qdCount
      by_cases hs : s = sponsor
      · subst hs
        rw [hchS, List.countP_append]
        have hsingle :
            List.countP (fun c => decide (l ≤ st1.dms s c)) [buyer] = 0 := by
          simp [List.countP_cons, hdm, hdb s]
          omega
        rw [hsingle, Nat.add_zero]
        apply countP_eq_of_agree
        intro x _
        rw [hdm]
      · rw [hchO s hs]
        apply countP_eq_of_agree
        intro x _
        rw [hdm]
  · exact ⟨hN, hCI, hD, hQ⟩

/-- `_registerReferral` preserves the referral invariant. -/
theorem refInv_registerReferral {st st' : DistState} {buyer sponsor slotId : Nat}
    (hsp : sponsor ≠ 0) (hinv : ReferralInv st)
    (h : registerReferral st buyer sponsor slotId = Except.ok st') : ReferralInv st' := by
  obtain ⟨st1, hl, rfl⟩ := registerReferral_ok_decompose h
  have hinv1 := refInv_referralLink hsp hinv hl
  have hinv2 : ReferralInv (updateUserSlot st1 buyer slotId) := by
    have hf := updateUserSlot_fields st1 buyer slotId
    exact refInv_congr hf.2.1 hf.1 hf.2.2.2.1 hf.2.2.1 hinv1
  exact refInv_updateQualified hsp hinv2

/-- The deployment state satisfies the referral invariant. -/
theorem refInv_init : ReferralInv initState := by
  refine ⟨fun s => ?_, fun s c => ?_, fun s c h => ?_, fun s l hl => ?_⟩
  · simp [DistState.children, initState, mapGet]
  · simp only [DistState.children, DistState.refOf, initState, mapGet]
    simp only [List.not_mem_nil, false_iff]
    omega
  · simp [DistState.dms, initState, mapGet] at h
  · simp [DistState.qd, qdCount, DistState.children, initState, mapGet]

/-- `registerApproval` preserves the referral invariant. -/
theorem refInv_registerApproval {st st' : DistState} {user allow blockNumber : Nat}
    (h : registerApproval st user allow blockNumber = Except.ok st')
    (hinv : ReferralInv st) : ReferralInv st' := by
  unfold registerApproval at h
  by_cases h0 : allow = 0
  · rw [if_pos h0] at h
    exact absurd h (by simp)
  · rw [if_neg h0] at h
    injection h with h'
    subst h'
    exact refInv_congr rfl rfl rfl rfl hinv

/-- Every reachable state satisfies the referral invariant. -/
theorem refInv_reachable {cfg : DistConfig} {st : DistState} (h : Reachable cfg st) :
    ReferralInv st := by
  induction h with
  | init => exact refInv_init
  | approve hr happ ih => exact refInv_registerApproval happ ih
  | buy hr hbuy ih =>
    obtain ⟨_, _, hsp, hreg, _⟩ := slotBuy_ok_elim hbuy
    exact refInv_registerReferral hsp ih hreg

/-- `_registerReferral` never decreases any qualified-direct counter. -/
theorem registerReferral_qd_mono {st st' : DistState} {buyer sponsor slotId : Nat}
    (h : registerReferral st buyer sponsor slotId = Except.ok st') :
    ∀ s l, st.qd s l ≤ st'.qd s l := by
  obtain ⟨st1, hl, rfl⟩ := registerReferral_ok_decompose h
  intro s l
  have h1 : st1.qd s l = st.qd s l := by
    simp [DistState.qd, (referralLink_ok_fields hl).2.1]
  have h2 : (updateUserSlot st1 buyer slotId).qd s l = st1.qd s l := by
    simp [DistState.qd, (updateUserSlot_fields st1 buyer slotId).2.2.1]
  rw [updateQualified_qd, h2, h1]
  omega

end GainDist

/-- **C5**: in every reachable state the children lists are duplicate-free
and `qualifiedDirects[s][l]` (for `l ≥ 1`) equals the number of distinct
directs of `s` whose recorded maximum slot (`directMaxSlot[s][·]`) is at
least `l`; moreover no operation ever decreases a counter (`slotBuy` can
only bump it, `registerApproval` never touches it), so each direct is
counted exactly once per level, at the purchase whose recorded maximum slot
first reaches that level. -/
theorem qualifiedDirects_counts :
    (∀ (cfg : GainDist.DistConfig) (st : GainDist.DistState), GainDist.Reachable cfg st →
       (∀ s, (st.children s).Nodup) ∧
       (∀ s l, 1 ≤ l → st.qd s l = GainDist.qdCount st s l)) ∧
    (∀ (cfg : GainDist.DistConfig) (st : GainDist.DistState)
       (fuel blockNumber bal buyer slotId sponsor : Nat)
       (out : GainDist.DistState × List (Nat × Nat)),
       GainDist.slotBuy cfg st fuel blockNumber bal buyer slotId sponsor = Except.ok out →
       ∀ s l, st.qd s l ≤ out.1.qd s l) ∧
    (∀ (st st' : GainDist.DistState) (user allow blockNumber : Nat),
       GainDist.registerApproval st user allow blockNumber = Except.ok st' →
       ∀ s l, st'.qd s l = st.qd s l) := by
  refine ⟨?_, ?_, ?_⟩
  · intro cfg st h
    obtain ⟨hN, _, _, hQ⟩ := GainDist.refInv_reachable h
    exact ⟨hN, hQ⟩
  · intro cfg st fuel blockNumber bal buyer slotId sponsor out h s l
    obtain ⟨_, _, _, hreg, _⟩ := GainDist.slotBuy_ok_elim h
    exact GainDist.registerReferral_qd_mono hreg s l
  · intro st st' user allow blockNumber h s l
    unfold GainDist.registerApproval at h
    by_cases h0 : allow = 0
    · rw [if_pos h0] at h
      exact absurd h (by simp)
    · rw [if_neg h0] at h
      injection h with h'
      subst h'
      rfl

/-- Witness for C5: after user 1's first purchase (slot 1, sponsor 2) the
counter `qualifiedDirects[2][1]` equals the number of directs of 2 at level
1, and the purchase did not decrease it. -/
theorem qualifiedDirects_counts_witness :
    (GainDist.buyOut cfgEx stC7 10 6 100 1 1 2).1.qd 2 1 =
      GainDist.qdCount (GainDist.buyOut cfgEx stC7 10 6 100 1 1 2).1 2 1 ∧
    stC7.qd 2 1 ≤ (GainDist.buyOut cfgEx stC7 10 6 100 1 1 2).1.qd 2 1 := by
  constructor
  · exact (qualifiedDirects_counts.1 cfgEx _
      (GainDist.Reachable.buy
        (GainDist.Reachable.approve GainDist.Reachable.init
          (GainDist.registerApproval_eq_ok_approveOut GainDist.initState 1 100 5 (by decide)))
        (GainDist.slotBuy_eq_ok_buyOut cfgEx stC7 10 6 100 1 1 2 (by decide)))).2 2 1
      (by decide)
  · exact qualifiedDirects_counts.2.1 cfgEx stC7 10 6 100 1 1 2 _
      (GainDist.slotBuy_eq_ok_buyOut cfgEx stC7 10 6 100 1 1 2 (by decide)) 2 1

/-! ## C3: sponsor fixed for life; the forest claim fails -/

namespace GainDist

/-- `referrerOf` lookups after `_registerReferral`. -/
theorem registerReferral_refOf {st st' : DistState} {buyer sponsor slotId : Nat}
    (h : registerReferral st buyer sponsor slotId = Except.ok st') :
    (st.refOf buyer = 0 → ∀ u, st'.refOf u = if u = buyer then sponsor else st.refOf u) ∧
    (st.refOf buyer ≠ 0 → st.refOf buyer = sponsor ∧ ∀ u, st'.refOf u = st.refOf u) := by
  obtain ⟨st1, hl, rfl⟩ := registerReferral_ok_decompose h
  have hrf : ∀ u, (updateQualified (updateUserSlot st1 buyer slotId) buyer sponsor
      slotId).refOf u = st1.refOf u := by
    intro u
    simp [DistState.refOf,
      (updateQualified_fields (updateUserSlot st1 buyer slotId) buyer sponsor slotId).1,
      (updateUserSlot_fields st1 buyer slotId).1]
  rcases referralLink_ok_refOf hl with ⟨h0, hrefs, _, _⟩ | ⟨heq, rfl⟩
  · constructor
    · intro _ u
      rw [hrf, hrefs u]
    · intro hne
      exact absurd h0 hne
  · constructor
    · intro _ u
      rw [hrf u]
      by_cases hu : u = buyer
      · subst hu
        rw [if_pos rfl, heq]
      · rw [if_neg hu]
    · intro _
      exact ⟨heq, hrf⟩

/-- `_registerReferral` reverts with `InvalidSponsor` on a repeat purchase
naming a different sponsor. -/
theorem registerReferral_mismatch {st : DistState} {buyer sponsor slotId : Nat}
    (h0 : st.refOf buyer ≠ 0) (hne : st.refOf buyer ≠ sponsor) :
    registerReferral st buyer sponsor slotId = Except.error DistError.InvalidSponsor := by
  unfold registerReferral referralLink
  rw [if_neg h0, if_pos hne]

end GainDist

/-- **C3 (amended)**: `referrerOf[buyer]` is set to the named sponsor on the
buyer's first `slotBuy`, no operation ever changes a nonzero `referrerOf`
entry, and a repeat `slotBuy` naming a sponsor different from the recorded
referrer (with the earlier guards passing) reverts with `InvalidSponsor`.
The forest part of the original claim is refuted by
the reachable cycle exhibited separately. -/
theorem referrer_fixed_for_life :
    (∀ (cfg : GainDist.DistConfig) (st : GainDist.DistState)
       (fuel blockNumber bal buyer slotId sponsor : Nat)
       (out : GainDist.DistState × List (Nat × Nat)),
       GainDist.slotBuy cfg st fuel blockNumber bal buyer slotId sponsor = Except.ok out →
       (st.refOf buyer = 0 → out.1.refOf buyer = sponsor) ∧
       (∀ u, st.refOf u ≠ 0 → out.1.refOf u = st.refOf u)) ∧
    (∀ (st st' : GainDist.DistState) (user allow blockNumber : Nat),
       GainDist.registerApproval st user allow blockNumber = Except.ok st' →
       ∀ u, st'.refOf u = st.refOf u) ∧
    (∀ (cfg : GainDist.DistConfig) (st : GainDist.DistState)
       (fuel blockNumber bal buyer slotId sponsor : Nat),
       st.refOf buyer ≠ 0 → st.refOf buyer ≠ sponsor →
       slotId ≠ 0 → slotId ≤ GainDist.MAX_SLOT → sponsor ≠ 0 →
       GainDist.SLOT_PRICE cfg.tokenDecimals slotId ≤ (st.allowRec buyer).1 →
       (st.allowRec buyer).2 < blockNumber →
       GainDist.SLOT_PRICE cfg.tokenDecimals slotId ≤ bal →
       GainDist.slotBuy cfg st fuel blockNumber bal buyer slotId sponsor =
         Except.error GainDist.DistError.InvalidSponsor) := by
  refine ⟨?_, ?_, ?_⟩
  · intro cfg st fuel blockNumber bal buyer slotId sponsor out h
    obtain ⟨_, _, _, hreg, _⟩ := GainDist.slotBuy_ok_elim h
    have href := GainDist.registerReferral_refOf hreg
    constructor
    · intro h0
      rw [href.1 h0 buyer, if_pos rfl]
    · intro u hu
      by_cases h0 : st.refOf buyer = 0
      · rw [href.1 h0 u]
        by_cases huB : u = buyer
        · subst huB
          exact absurd h0 hu
        · rw [if_neg huB]
      · exact (href.2 h0).2 u
  · intro st st' user allow blockNumber h u
    unfold GainDist.registerApproval at h
    by_cases h0 : allow = 0
    · rw [if_pos h0] at h
      exact absurd h (by simp)
    · rw [if_neg h0] at h
      injection h with h'
      subst h'
      rfl
  · intro cfg st fuel blockNumber bal buyer slotId sponsor h0 hne hs1 hs2 hsp hallow hblock hbal
    unfold GainDist.slotBuy
    have h1 : ¬(slotId = 0 ∨ GainDist.MAX_SLOT < slotId) := by
      simp only [GainDist.MAX_SLOT] at *
      omega
    rw [if_neg h1, if_neg hsp, if_neg (Nat.not_lt.mpr hallow),
      if_neg (Nat.not_le.mpr hblock), if_neg (Nat.not_lt.mpr hbal),
      GainDist.registerReferral_mismatch h0 hne]

/-- Witness for the amended C3: user 1's first purchase in `stC7` records
sponsor 2, and a repeat purchase in `exS1` naming sponsor 3 instead of the
recorded sponsor 2 reverts with `InvalidSponsor`. -/
theorem referrer_fixed_for_life_witness :
    (GainDist.buyOut cfgEx stC7 10 6 100 1 1 2).1.refOf 1 = 2 ∧
    GainDist.slotBuy cfgEx exS1 10 2 100 1 1 3 =
      Except.error GainDist.DistError.InvalidSponsor :=
  ⟨(referrer_fixed_for_life.1 cfgEx stC7 10 6 100 1 1 2 _
      (GainDist.slotBuy_eq_ok_buyOut cfgEx stC7 10 6 100 1 1 2 (by decide))).1 (by decide),
   referrer_fixed_for_life.2.2 cfgEx exS1 10 2 100 1 1 3 (by decide) (by decide) (by decide)
     (by decide) (by decide) (by decide) (by decide) (by decide)⟩

/-- Counterexample to C3's forest claim: `exS6` is reachable from the
deployment state by successful transactions only, yet it contains the
referral cycle `1 → 2 → 1`: user 1 registered with sponsor 2 while 2 was
unregistered, four directs made user 1 royalty-qualified at every level, and
then user 2's own first purchase named its descendant 1 as sponsor, which no
check prevents. -/
theorem referral_forest_counterexample :
    GainDist.Reachable cfgEx exS6 ∧ exS6.refOf 1 = 2 ∧ exS6.refOf 2 = 1 := by
  refine ⟨?_, by decide, by decide⟩
  have r1 := GainDist.Reachable.approve
    (GainDist.Reachable.init : GainDist.Reachable cfgEx GainDist.initState)
    (GainDist.registerApproval_eq_ok_approveOut GainDist.initState 1 100000 1 (by decide))
  have r2 := GainDist.Reachable.approve r1
    (GainDist.registerApproval_eq_ok_approveOut _ 2 100000 1 (by decide))
  have r3 := GainDist.Reachable.approve r2
    (GainDist.registerApproval_eq_ok_approveOut _ 3 100000 1 (by decide))
  have r4 := GainDist.Reachable.approve r3
    (GainDist.registerApproval_eq_ok_approveOut _ 4 100000 1 (by decide))
  have r5 := GainDist.Reachable.approve r4
    (GainDist.registerApproval_eq_ok_approveOut _ 5 100000 1 (by decide))
  have r6 : GainDist.Reachable cfgEx exS0 := GainDist.Reachable.approve r5
    (GainDist.registerApproval_eq_ok_approveOut _ 6 100000 1 (by decide))
  have b1 : GainDist.Reachable cfgEx exS1 := GainDist.Reachable.buy r6
    (GainDist.slotBuy_eq_ok_buyOut cfgEx exS0 10 2 100000 1 11 2 (by decide))
  have b2 : GainDist.Reachable cfgEx exS2 := GainDist.Reachable.buy b1
    (GainDist.slotBuy_eq_ok_buyOut cfgEx exS1 10 2 100000 3 11 1 (by decide))
  have b3 : GainDist.Reachable cfgEx exS3 := GainDist.Reachable.buy b2
    (GainDist.slotBuy_eq_ok_buyOut cfgEx exS2 10 2 100000 4 11 1 (by decide))
  have b4 : GainDist.Reachable cfgEx exS4 := GainDist.Reachable.buy b3
    (GainDist.slotBuy_eq_ok_buyOut cfgEx exS3 10 2 100000 5 11 1 (by decide))
  have b5 : GainDist.Reachable cfgEx exS5 := GainDist.Reachable.buy b4
    (GainDist.slotBuy_eq_ok_buyOut cfgEx exS4 10 2 100000 6 11 1 (by decide))
  exact GainDist.Reachable.buy b5
    (GainDist.slotBuy_eq_ok_buyOut cfgEx exS5 10 2 100000 2 1 1 (by decide))
